import Mathlib

/-!
Verification development for the code-review workflow
(`src/mastra/workflows/code-review-workflow.ts`): the input normalizer
(`parseRepoUrl` step), the unified-diff parser and the remote commit
fetcher (both inside the `routeStep` step).  JS strings are modeled as
`String` at the record boundary and as `List Char` inside the scanners;
JS `null`/`undefined` is modeled as `Option`; thrown JS errors are
modeled with `Except` over an inductive error type mirroring the
`new Error(...)` sites of the source.
-/

deriving instance DecidableEq for Except

namespace CodeReview

/-- One line of text (no newline characters), as produced by
JS `content.split('\n')`.  JS strings are modeled as lists of characters
inside the scanners. -/
abbrev Line := List Char

/-- Model of JS `content.split('\n')`: split at every `'\n'`;
the empty string yields one empty line, a trailing separator yields a
trailing empty line. -/
def splitLines : List Char → List Line
  | [] => [[]]
  | c :: cs =>
    if c = '\n' then [] :: splitLines cs
    else
      match splitLines cs with
      | [] => [[c]]
      | l :: ls => (c :: l) :: ls

/-- JS `line.startsWith('diff --git')`. -/
def isMarker (line : Line) : Bool := "diff --git".toList.isPrefixOf line

/-- JS `line.startsWith('+') && !line.startsWith('+++')`. -/
def isPlusLine (line : Line) : Bool :=
  "+".toList.isPrefixOf line && !("+++".toList.isPrefixOf line)

/-- JS `line.startsWith('-') && !line.startsWith('---')` (the `else if`
branch of the scanner). -/
def isMinusLine (line : Line) : Bool :=
  "-".toList.isPrefixOf line && !("---".toList.isPrefixOf line)

/-- The literal part `diff --git a/` of the regex
`/diff --git a\/(.+) b\/(.+)/`. -/
def dgLit : Line := "diff --git a/".toList

/-- The literal part ` b/` of the same regex. -/
def bSep : Line := " b/".toList

/-- Completion of the regex `/diff --git a\/(.+) b\/(.+)/` after the
literal `diff --git a/` has been matched: `tail` must decompose as
`X ++ " b/" ++ Y` with `X` and `Y` nonempty; the first `(.+)` is greedy,
so the split is taken at the last valid position (both groups live on a
single line, so `.` never meets a newline). -/
def completeDG (tail : Line) : Option (Line × Line) :=
  match ((List.range tail.length).filter
      (fun j => decide (1 ≤ j) && bSep.isPrefixOf (tail.drop j)
        && decide (j + 3 < tail.length))).getLast? with
  | some j => some (tail.take j, tail.drop (j + 3))
  | none => none

/-- JS `line.match(/diff --git a\/(.+) b\/(.+)/)`: scan start positions
left to right; at the first position where the literal `diff --git a/`
matches and the rest of the pattern can complete, return the two capture
groups; otherwise advance one character. -/
def matchDiffGit : Line → Option (Line × Line)
  | [] => none
  | c :: cs =>
    if dgLit.isPrefixOf (c :: cs) then
      match completeDG ((c :: cs).drop dgLit.length) with
      | some r => some r
      | none => matchDiffGit cs
    else matchDiffGit cs

/-- JS `match ? match[2] : ''`: the filename assigned to `currentFile`
when a `diff --git` marker line is processed. -/
def nameOf (line : Line) : Line :=
  match matchDiffGit line with
  | some p => p.2
  | none => []

/-- One entry of the `files` array of the canonical commit detail
(`commitDetailSchema`).  `patch` is optional in the schema; the local
diff parser always supplies it. -/
structure FileChange where
  filename : String
  additions : Nat
  deletions : Nat
  changes : Nat
  status : String
  patch : Option String
  deriving DecidableEq

/-- The `stats` object of the canonical commit detail. -/
structure Stats where
  additions : Nat
  deletions : Nat
  total : Nat
  deriving DecidableEq

/-- The canonical output of normalization (`commitDetailSchema`). -/
structure CommitDetail where
  sha : String
  message : String
  author : String
  date : String
  url : String
  stats : Stats
  files : List FileChange
  deriving DecidableEq

/-- The mutable locals of the diff-parsing loop in `routeStep`:
`currentFile` (JS `null` modeled as `none`; note the parser can also set
it to the empty string), the two counters, the accumulated `patch` text
and the `files` array built so far. -/
structure ParseState where
  currentFile : Option Line
  additions : Nat
  deletions : Nat
  patch : Line
  files : List FileChange
  deriving DecidableEq

/-- The initial loop state: `currentFile = null`, zero counters, empty
patch, empty files array. -/
def initState : ParseState := ⟨none, 0, 0, [], []⟩

/-- JS truthiness of `currentFile`: `null` and the empty string are
falsy. -/
def truthy : Option Line → Bool
  | none => false
  | some s => !s.isEmpty

/-- The object pushed onto `files` when a section is closed. -/
def mkFile (st : ParseState) : FileChange :=
  { filename := String.mk (st.currentFile.getD [])
    additions := st.additions
    deletions := st.deletions
    changes := st.additions + st.deletions
    status := "modified"
    patch := some (String.mk st.patch) }

/-- One iteration of the `for (const line of diffLines)` loop: close the
open section on a marker line and reset the locals, then run the `+`/`-`
counting, then append the line (with its newline restored) to the
patch accumulator. -/
def stepLine (st : ParseState) (line : Line) : ParseState :=
  let st1 :=
    if isMarker line then
      { currentFile := some (nameOf line)
        additions := 0
        deletions := 0
        patch := []
        files := st.files ++ (if truthy st.currentFile then [mkFile st] else []) }
    else st
  let st2 :=
    if isPlusLine line then { st1 with additions := st1.additions + 1 }
    else if isMinusLine line then { st1 with deletions := st1.deletions + 1 }
    else st1
  { st2 with patch := st2.patch ++ line ++ ['\n'] }

/-- The whole loop. -/
def runLines (st : ParseState) (lines : List Line) : ParseState :=
  lines.foldl stepLine st

/-- The flush after the loop: `if (currentFile) files.push({...})`. -/
def finishFiles (st : ParseState) : List FileChange :=
  st.files ++ (if truthy st.currentFile then [mkFile st] else [])

/-- The `files` array produced by the diff branch of `routeStep` for a
given `diffContent` string. -/
def parseDiffFiles (content : String) : List FileChange :=
  finishFiles (runLines initState (splitLines content.toList))

/-- JS `x || 'default'` on a string-or-undefined value: `undefined` and
the empty string select the default. -/
def jsOr (o : Option String) (d : String) : String :=
  match o with
  | some s => if s = "" then d else s
  | none => d

/-- The CommitDetail returned by the diff branch of `routeStep`.  `now`
stands for `new Date().toISOString()`, passed in explicitly. -/
def buildDiffDetail (diffContent : String) (commitMessage author commitSha : Option String)
    (now : String) : CommitDetail :=
  let files := parseDiffFiles diffContent
  let totalAdditions := files.foldl (fun sum file => sum + file.additions) 0
  let totalDeletions := files.foldl (fun sum file => sum + file.deletions) 0
  { sha := jsOr commitSha "direct-diff"
    message := jsOr commitMessage "Direct diff review"
    author := jsOr author "Unknown"
    date := now
    url := ""
    stats :=
      { additions := totalAdditions
        deletions := totalDeletions
        total := totalAdditions + totalDeletions }
    files := files }

/-- An error thrown inside the remote branch of `routeStep`, before the
`catch` wraps it. -/
inductive JsError where
  /-- `new Error(`GitHub API error: (status) (statusText)`)` thrown on a
  non-success response. -/
  | githubApiError (status : Nat) (statusText : String)
  /-- The runtime `TypeError` raised by reading the named property of
  `undefined` (e.g. `commits[0].sha` when the commit list is empty). -/
  | undefinedPropertyAccess (prop : String)
  deriving DecidableEq

/-- The message text of a thrown error (`error.message`). -/
def JsError.message : JsError → String
  | .githubApiError status statusText =>
      "GitHub API error: " ++ toString status ++ " " ++ statusText
  | .undefinedPropertyAccess prop =>
      "Cannot read properties of undefined (reading '" ++ prop ++ "')"

/-- An error surfaced by `routeStep` to its caller. -/
inductive RouteError where
  /-- An error thrown outside any `try` block (the diff branch has no
  `try`/`catch`). -/
  | uncaught (e : JsError)
  /-- `new Error(`Failed to fetch commit details: (message)`)`: the
  `catch` of the remote branch re-wrapping the causing error. -/
  | fetchWrapped (e : JsError)
  /-- Modelled from the spec: `MissingUpstreamDataError`, the error the
  spec's taxonomy dedicates to an empty commit list returned by the
  remote API.  No code path in `src` produces this value; it exists so
  that statements about the spec's expected error can be written. -/
  | missingUpstreamData
  deriving DecidableEq

/-- The message text surfaced to the caller of `routeStep`. -/
def RouteError.message : RouteError → String
  | .uncaught e => e.message
  | .fetchWrapped e => "Failed to fetch commit details: " ++ e.message
  | .missingUpstreamData => "No commits found"

/-- The observable part of a `fetch` response: the success flag checked
by `response.ok`, the numeric status, the reason text, and the parsed
JSON body. -/
structure HttpResponse (α : Type) where
  ok : Bool
  status : Nat
  statusText : String
  body : α
  deriving DecidableEq

/-- One element of the commit-list response
(`GET /repos/(owner)/(repo)/commits?per_page=5`); the code only reads
its `sha`. -/
structure ListCommitItem where
  sha : String
  deriving DecidableEq

/-- The `commit.author` object of the detail response. -/
structure GhCommitAuthor where
  name : String
  date : String
  deriving DecidableEq

/-- The `commit` object of the detail response. -/
structure GhCommitObj where
  message : String
  author : GhCommitAuthor
  deriving DecidableEq

/-- The top-level `author` object of the detail response (`null` when
GitHub cannot resolve an account). -/
structure GhActor where
  login : String
  deriving DecidableEq

/-- The `stats` object of the detail response. -/
structure GhStats where
  additions : Nat
  deletions : Nat
  total : Nat
  deriving DecidableEq

/-- One `files[]` entry of the detail response. -/
structure GhFile where
  filename : String
  additions : Nat
  deletions : Nat
  changes : Nat
  status : String
  patch : Option String
  deriving DecidableEq

/-- The detail response (`GET /repos/(owner)/(repo)/commits/(sha)`). -/
structure GhCommitDetail where
  sha : String
  commit : GhCommitObj
  author : Option GhActor
  stats : GhStats
  files : List GhFile
  deriving DecidableEq

/-- The field re-shaping applied to each upstream `files[]` entry. -/
def convertFile (f : GhFile) : FileChange :=
  { filename := f.filename
    additions := f.additions
    deletions := f.deletions
    changes := f.changes
    status := f.status
    patch := f.patch }

/-- The remote branch of `routeStep`.  The two HTTP responses are passed
in as the environment (`resp1` answers the commit-list request, `resp2`
the subsequent detail request for the first commit's sha); everything
thrown inside the `try` block is re-thrown by the `catch` wrapped in the
`Failed to fetch commit details:` context. -/
def routeStepRemote (owner repo : String)
    (resp1 : HttpResponse (List ListCommitItem))
    (resp2 : HttpResponse GhCommitDetail) : Except RouteError CommitDetail :=
  let inner : Except JsError CommitDetail :=
    if !resp1.ok then
      .error (.githubApiError resp1.status resp1.statusText)
    else
      match resp1.body with
      | [] =>
        -- `commits[0]` is `undefined`; building the detail URL reads
        -- `latestCommit.sha` and throws.
        .error (.undefinedPropertyAccess "sha")
      | _ :: _ =>
        if !resp2.ok then
          .error (.githubApiError resp2.status resp2.statusText)
        else
          let d := resp2.body
          .ok
            { sha := d.sha
              message := d.commit.message
              author := jsOr (d.author.map (·.login)) d.commit.author.name
              date := d.commit.author.date
              url := "https://github.com/" ++ owner ++ "/" ++ repo ++ "/commit/" ++ d.sha
              stats :=
                { additions := d.stats.additions
                  deletions := d.stats.deletions
                  total := d.stats.total }
              files := d.files.map convertFile }
  match inner with
  | .ok v => .ok v
  | .error e => .error (.fetchWrapped e)

/-- The output type of the `parseRepoUrl` step (the union of
`repoInfoSchema` and the tagged diff object). -/
inductive RouteInput where
  | repoInfo (owner repo url : String)
  | diff (diffContent : Option String) (commitMessage author commitSha : Option String)
  deriving DecidableEq

/-- `routeStep`: dispatch on the tagged diff object versus repo info.
A diff object whose `diffContent` is `undefined` makes
`inputData.diffContent.split('\n')` throw outside any `try` block. -/
def routeStep (input : RouteInput) (now : String)
    (resp1 : HttpResponse (List ListCommitItem))
    (resp2 : HttpResponse GhCommitDetail) : Except RouteError CommitDetail :=
  match input with
  | .diff dc cm a cs =>
    match dc with
    | some content => .ok (buildDiffDetail content cm a cs now)
    | none => .error (.uncaught (.undefinedPropertyAccess "split"))
  | .repoInfo owner repo _ => routeStepRemote owner repo resp1 resp2

/-- The literal part `github.com/` shared by the two URL patterns. -/
def ghLit : Line := "github.com/".toList

/-- Character class `[^\/]` of the owner segment. -/
def nonSlash (c : Char) : Bool := c != '/'

/-- Character class `[^\/\?#]` of the repo segment. -/
def nonSpecial (c : Char) : Bool := c != '/' && c != '?' && c != '#'

/-- Completion of `/github\.com\/([^\/]+)\/([^\/\?#]+)/` after the
literal `github.com/`: the greedy owner run must end at a `/`, and the
repo run after that `/` must be nonempty. -/
def completeRepo1 (tail : Line) : Option (Line × Line) :=
  let a := tail.takeWhile nonSlash
  if a.isEmpty then none
  else
    match tail.drop a.length with
    | [] => none
    | _ :: b =>
      let r := b.takeWhile nonSpecial
      if r.isEmpty then none else some (a, r)

/-- Completion of `/github\.com\/([^\/]+)\/([^\/\?#]+)\.git/` after the
literal `github.com/`: as in `completeRepo1`, but the greedy repo group
backtracks to the last position followed by the literal `.git`. -/
def completeRepo2 (tail : Line) : Option (Line × Line) :=
  let a := tail.takeWhile nonSlash
  if a.isEmpty then none
  else
    match tail.drop a.length with
    | [] => none
    | _ :: b =>
      let maxRun := (b.takeWhile nonSpecial).length
      match ((List.range (maxRun + 1)).filter
          (fun k => decide (1 ≤ k) && ".git".toList.isPrefixOf (b.drop k))).getLast? with
      | some k => some (a, b.take k)
      | none => none

/-- JS `repoUrl.match(pattern)` for either URL pattern: scan start
positions left to right, trying the literal `github.com/` and then the
given completion. -/
def findRepoMatch (complete : Line → Option (Line × Line)) : Line → Option (Line × Line)
  | [] => none
  | c :: cs =>
    if ghLit.isPrefixOf (c :: cs) then
      match complete ((c :: cs).drop ghLit.length) with
      | some r => some r
      | none => findRepoMatch complete cs
    else findRepoMatch complete cs

/-- The `for (const pattern of patterns)` loop: the first pattern is
tried first; on a match the loop breaks. -/
def urlLoopMatch (s : Line) : Option (Line × Line) :=
  match findRepoMatch completeRepo1 s with
  | some r => some r
  | none => findRepoMatch completeRepo2 s

/-- JS `if (repo.endsWith('.git')) repo = repo.slice(0, -4)`. -/
def stripDotGit (r : Line) : Line :=
  if ".git".toList.isSuffixOf r then r.take (r.length - 4) else r

/-- The GitHub-URL branch of the `parseRepoUrl` step: run the pattern
loop, strip a `.git` suffix from the repo segment, and fail when either
captured segment is empty. -/
def parseRepoUrlPath (repoUrl : String) : Except String RouteInput :=
  let r := urlLoopMatch repoUrl.toList
  let owner : Line := match r with | some p => p.1 | none => []
  let repoRaw : Line := match r with | some p => p.2 | none => []
  let repo := stripDotGit repoRaw
  if owner.isEmpty || repo.isEmpty then
    .error ("Invalid GitHub URL format: " ++ repoUrl)
  else
    .ok (.repoInfo (String.mk owner) (String.mk repo) repoUrl)

/-- An input record as seen by the `parseRepoUrl` step: every field may
be absent (`undefined`). -/
structure RawInput where
  repoUrl : Option String
  diffContent : Option String
  commitMessage : Option String
  author : Option String
  commitSha : Option String
  deriving DecidableEq

/-- The `parseRepoUrl` step: `'repoUrl' in inputData` selects the URL
branch; otherwise the diff fields are passed through verbatim, with no
validation of `diffContent`. -/
def parseRepoUrlStep (i : RawInput) : Except String RouteInput :=
  match i.repoUrl with
  | some url => parseRepoUrlPath url
  | none => .ok (.diff i.diffContent i.commitMessage i.author i.commitSha)

/-! Specification-side description of the diff parser (section 4.3 of
the spec), used to state the refinement claims: the line stream splits
into a pre-marker prefix (held by no section) and a list of sections,
each starting at a `diff --git` marker line and running up to (and
excluding) the next marker. -/

/-- Number of addition lines a single line contributes. -/
def addInc (l : Line) : Nat := if isPlusLine l then 1 else 0

/-- Number of deletion lines a single line contributes (the `else if`
makes a `+` line never count as a deletion). -/
def delInc (l : Line) : Nat :=
  if isPlusLine l then 0 else if isMinusLine l then 1 else 0

/-- Addition count of a run of lines. -/
def countAdds : List Line → Nat
  | [] => 0
  | l :: ls => addInc l + countAdds ls

/-- Deletion count of a run of lines. -/
def countDels : List Line → Nat
  | [] => 0
  | l :: ls => delInc l + countDels ls

/-- Every line appended verbatim with its trailing newline restored. -/
def joinNL : List Line → Line
  | [] => []
  | l :: ls => l ++ '\n' :: joinNL ls

/-- Split a line stream into the prefix before the first marker and the
list of sections, each headed by its marker line. -/
def splitSections : List Line → List Line × List (List Line)
  | [] => ([], [])
  | l :: ls =>
    let r := splitSections ls
    if isMarker l then ([], (l :: r.1) :: r.2) else (l :: r.1, r.2)

/-- Specification-side FileChange of one section: filename is the
post-image path captured by the marker's pattern (a section whose
marker does not match the pattern gets the empty filename and is
omitted); counters scan the whole section; the patch is the section's
lines, each suffixed with a newline, starting with the marker line
itself. -/
def specFileOfSection (sec : List Line) : Option FileChange :=
  match sec with
  | [] => none
  | m :: rest =>
    let name := nameOf m
    if name.isEmpty then none
    else
      some
        { filename := String.mk name
          additions := countAdds (m :: rest)
          deletions := countDels (m :: rest)
          changes := countAdds (m :: rest) + countDels (m :: rest)
          status := "modified"
          patch := some (String.mk (joinNL (m :: rest))) }

/-- Specification-side files list of a line stream: one FileChange per
emitted section, in order; lines before the first marker appear in no
emitted record. -/
def specFiles (lines : List Line) : List FileChange :=
  (splitSections lines).2.filterMap specFileOfSection

/-- A state that has absorbed a further marker-free run of lines into
its open section. -/
def absorb (st : ParseState) (pre : List Line) : ParseState :=
  { st with
    additions := st.additions + countAdds pre
    deletions := st.deletions + countDels pre
    patch := st.patch ++ joinNL pre }

/-- The characters of the marker prefix. -/
lemma dgChars : "diff --git".toList = ['d', 'i', 'f', 'f', ' ', '-', '-', 'g', 'i', 't'] := rfl

/-- A marker line starts with `d`, so it is neither a `+` line nor a
`-` line. -/
lemma marker_not_plus {l : Line} (h : isMarker l = true) :
    isPlusLine l = false ∧ isMinusLine l = false := by
  cases l with
  | nil => simp [isMarker, dgChars, List.isPrefixOf] at h
  | cons c cs =>
    have hc : c = 'd' := by
      simp [isMarker, dgChars, List.isPrefixOf, Bool.and_eq_true, beq_iff_eq] at h
      exact h.1.symm
    subst hc
    exact ⟨rfl, rfl⟩

/-- `stepLine` on a marker line: close the open section, reset the
locals, and start the new patch with the marker line itself. -/
lemma stepLine_marker (st : ParseState) {l : Line} (h : isMarker l = true) :
    stepLine st l =
      ⟨some (nameOf l), 0, 0, l ++ ['\n'],
        st.files ++ (if truthy st.currentFile then [mkFile st] else [])⟩ := by
  obtain ⟨hp, hm⟩ := marker_not_plus h
  simp [stepLine, h, hp, hm]

/-- `stepLine` on a non-marker line only bumps the counters and extends
the patch. -/
lemma stepLine_nonmarker (st : ParseState) {l : Line} (h : isMarker l = false) :
    stepLine st l =
      ⟨st.currentFile, st.additions + addInc l, st.deletions + delInc l,
        st.patch ++ (l ++ ['\n']), st.files⟩ := by
  cases hp : isPlusLine l <;> cases hm : isMinusLine l <;>
    simp [stepLine, addInc, delInc, h, hp, hm, List.append_assoc]

/-- Absorbing no lines changes nothing. -/
lemma absorb_nil (st : ParseState) : absorb st [] = st := by
  simp [absorb, countAdds, countDels, joinNL]

/-- Master refinement lemma: running the loop from an arbitrary state
and flushing equals the already-emitted files, then (if a section is
open) that section extended by the pre-marker prefix, then the
specification-side files of the remaining sections. -/
lemma run_spec (lines : List Line) : ∀ st : ParseState,
    finishFiles (runLines st lines) =
      st.files
        ++ (if truthy st.currentFile then [mkFile (absorb st (splitSections lines).1)] else [])
        ++ (splitSections lines).2.filterMap specFileOfSection := by
  induction lines with
  | nil =>
    intro st
    simp [runLines, finishFiles, splitSections, absorb_nil]
  | cons l ls ih =>
    intro st
    have hrun : runLines st (l :: ls) = runLines (stepLine st l) ls := rfl
    by_cases h : isMarker l = true
    · obtain ⟨hp, hm⟩ := marker_not_plus h
      rw [hrun, stepLine_marker st h, ih]
      rcases hs : splitSections ls with ⟨P, S⟩
      cases hn : (nameOf l).isEmpty with
      | true =>
        simp [splitSections, h, hs, specFileOfSection, hn, truthy, absorb_nil,
          List.filterMap_cons, List.append_assoc]
      | false =>
        simp [splitSections, h, hs, specFileOfSection, hn, truthy, absorb_nil,
          List.filterMap_cons, List.append_assoc, mkFile, absorb, countAdds, countDels,
          joinNL, addInc, delInc, hp, hm]
    · have h' : isMarker l = false := by simpa using h
      rw [hrun, stepLine_nonmarker st h', ih]
      rcases hs : splitSections ls with ⟨P, S⟩
      simp [splitSections, h', hs, absorb, mkFile, countAdds, countDels, joinNL,
        addInc, delInc, List.append_assoc, Nat.add_assoc]

/-- The parsed files of a diff string are exactly the
specification-side files of its line stream. -/
lemma parseDiffFiles_eq_specFiles (content : String) :
    parseDiffFiles content = specFiles (splitLines content.toList) := by
  rw [parseDiffFiles, run_spec]
  simp [initState, truthy, specFiles]

/-- Running the loop over a marker-free run of lines only accumulates
counters and patch text. -/
lemma run_nomarker : ∀ (ls : List Line) (st : ParseState), (∀ l ∈ ls, isMarker l = false) →
    runLines st ls =
      ⟨st.currentFile, st.additions + countAdds ls, st.deletions + countDels ls,
        st.patch ++ joinNL ls, st.files⟩ := by
  intro ls
  induction ls with
  | nil => intro st _; simp [runLines, countAdds, countDels, joinNL]
  | cons l t ih =>
    intro st h
    have h1 : isMarker l = false := h l (by simp)
    have hrun : runLines st (l :: t) = runLines (stepLine st l) t := rfl
    rw [hrun, stepLine_nonmarker st h1, ih _ (fun x hx => h x (by simp [hx]))]
    simp [countAdds, countDels, joinNL, Nat.add_assoc, List.append_assoc]

/-- A marker-free line stream is all prefix and no section. -/
lemma splitSections_nomarker {ls : List Line} (h : ∀ l ∈ ls, isMarker l = false) :
    splitSections ls = (ls, []) := by
  induction ls with
  | nil => rfl
  | cons l t ih =>
    have h1 : isMarker l = false := h l (by simp)
    simp [splitSections, h1, ih (fun x hx => h x (by simp [hx]))]

/-- Appending one final section (a marker line plus a marker-free run)
appends exactly one section to the decomposition. -/
lemma splitSections_append {pre : List Line} {m : Line} {rest : List Line}
    (hm : isMarker m = true) (hr : ∀ l ∈ rest, isMarker l = false) :
    splitSections (pre ++ m :: rest) =
      ((splitSections pre).1, (splitSections pre).2 ++ [m :: rest]) := by
  induction pre with
  | nil => simp [splitSections, hm, splitSections_nomarker hr]
  | cons p ps ih =>
    by_cases hp : isMarker p = true
    · simp [splitSections, hp, ih]
    · have hp' : isMarker p = false := by simpa using hp
      simp [splitSections, hp', ih]

/-- The `files.reduce((sum, file) => sum + file.additions, 0)` of the
source equals the sum of the per-file addition counts. -/
lemma foldl_additions_eq_sum (files : List FileChange) :
    files.foldl (fun sum file => sum + file.additions) 0 = (files.map (·.additions)).sum := by
  rw [List.sum_eq_foldl, List.foldl_map]

/-- Same for deletions. -/
lemma foldl_deletions_eq_sum (files : List FileChange) :
    files.foldl (fun sum file => sum + file.deletions) 0 = (files.map (·.deletions)).sum := by
  rw [List.sum_eq_foldl, List.foldl_map]

/-- A list is a Boolean prefix of itself extended by anything. -/
lemma isPrefixOf_append_self (l t : Line) : l.isPrefixOf (l ++ t) = true := by
  induction l with
  | nil => simp [List.isPrefixOf]
  | cons a as ih => simp [List.isPrefixOf, ih]

/-- Stripping `.git` from a repo segment that ends with it recovers the
segment. -/
lemma stripDotGit_append (s : Line) : stripDotGit (s ++ ".git".toList) = s := by
  have h1 : (".git".toList).isSuffixOf (s ++ ".git".toList) = true := by
    simp [List.isSuffixOf, List.reverse_append]
  have hlen : (".git".toList).length = 4 := rfl
  have h2 : (s ++ ".git".toList).length - 4 = s.length := by
    rw [List.length_append, hlen]
    omega
  simp only [stripDotGit, h1, if_true]
  rw [h2]
  exact List.take_left _ _

/-- Wherever the first URL pattern fails to complete, the second (which
additionally demands a `.git` literal after a nonempty repo group)
fails too. -/
lemma completeRepo2_none {tail : Line} (h : completeRepo1 tail = none) :
    completeRepo2 tail = none := by
  unfold completeRepo1 at h
  unfold completeRepo2
  by_cases ha : (tail.takeWhile nonSlash).isEmpty = true
  · simp [ha]
  · have ha' : (tail.takeWhile nonSlash).isEmpty = false := by simpa using ha
    simp only [ha', Bool.false_eq_true, if_false] at h ⊢
    cases hd : tail.drop (tail.takeWhile nonSlash).length with
    | nil => simp [hd]
    | cons x b =>
      simp only [hd] at h ⊢
      by_cases hr : (b.takeWhile nonSpecial).isEmpty = true
      · have h0 : (b.takeWhile nonSpecial).length = 0 := by
          simpa [List.isEmpty_iff] using hr
        simp [h0, List.range_succ, show decide (1 ≤ 0) = false from rfl]
      · have hr' : (b.takeWhile nonSpecial).isEmpty = false := by simpa using hr
        simp [hr'] at h

/-- Leftmost scanning preserves failure from the first pattern to the
second. -/
lemma findRepoMatch_mono : ∀ s : Line, findRepoMatch completeRepo1 s = none →
    findRepoMatch completeRepo2 s = none := by
  intro s
  induction s with
  | nil => intro _; rfl
  | cons c cs ih =>
    intro h
    cases hg : ghLit.isPrefixOf (c :: cs) with
    | true =>
      simp only [findRepoMatch, hg, if_true] at h ⊢
      cases h1 : completeRepo1 ((c :: cs).drop ghLit.length) with
      | some r => simp [h1] at h
      | none =>
        simp only [h1] at h
        simp [completeRepo2_none h1, ih h]
    | false =>
      simp only [findRepoMatch, hg, Bool.false_eq_true, if_false] at h ⊢
      exact ih h

/-- The remote branch on a failed commit-list call. -/
lemma routeStepRemote_err1 (owner repo : String) (r1 : HttpResponse (List ListCommitItem))
    (r2 : HttpResponse GhCommitDetail) (h1 : r1.ok = false) :
    routeStepRemote owner repo r1 r2
      = .error (.fetchWrapped (.githubApiError r1.status r1.statusText)) := by
  simp [routeStepRemote, h1]

/-- The remote branch on a successful but empty commit list. -/
lemma routeStepRemote_empty (owner repo : String) (r1 : HttpResponse (List ListCommitItem))
    (r2 : HttpResponse GhCommitDetail) (h1 : r1.ok = true) (hb : r1.body = []) :
    routeStepRemote owner repo r1 r2
      = .error (.fetchWrapped (.undefinedPropertyAccess "sha")) := by
  simp [routeStepRemote, h1, hb]

/-- The remote branch on a failed detail call. -/
lemma routeStepRemote_err2 (owner repo : String) (r1 : HttpResponse (List ListCommitItem))
    (r2 : HttpResponse GhCommitDetail) (x : ListCommitItem) (xs : List ListCommitItem)
    (h1 : r1.ok = true) (hb : r1.body = x :: xs) (h2 : r2.ok = false) :
    routeStepRemote owner repo r1 r2
      = .error (.fetchWrapped (.githubApiError r2.status r2.statusText)) := by
  simp [routeStepRemote, h1, hb, h2]

/-- The remote branch on two successful calls: the detail response is
re-shaped field by field, the stats passed through unchanged. -/
lemma routeStepRemote_ok (owner repo : String) (r1 : HttpResponse (List ListCommitItem))
    (r2 : HttpResponse GhCommitDetail) (x : ListCommitItem) (xs : List ListCommitItem)
    (h1 : r1.ok = true) (hb : r1.body = x :: xs) (h2 : r2.ok = true) :
    routeStepRemote owner repo r1 r2 =
      .ok
        { sha := r2.body.sha
          message := r2.body.commit.message
          author := jsOr (r2.body.author.map (·.login)) r2.body.commit.author.name
          date := r2.body.commit.author.date
          url := "https://github.com/" ++ owner ++ "/" ++ repo ++ "/commit/" ++ r2.body.sha
          stats := ⟨r2.body.stats.additions, r2.body.stats.deletions, r2.body.stats.total⟩
          files := r2.body.files.map convertFile } := by
  simp [routeStepRemote, h1, hb, h2]

/-- A well-formed detail response used as a fixture by the concrete
witnesses. -/
def dummyGhDetail : GhCommitDetail :=
  { sha := "abc123"
    commit := { message := "msg", author := { name := "alice", date := "2024-01-02T03:04:05Z" } }
    author := some ⟨"alogin"⟩
    stats := ⟨3, 1, 4⟩
    files := [⟨"a.txt", 3, 1, 4, "modified", some "@@ -1 +1,3 @@"⟩] }

/-! Claim theorems. -/

/-- The CommitDetail the remote branch produces from `dummyGhList` /
`c1BadStatsDetail` below: its upstream stats are internally
inconsistent and are passed through unchanged. -/
def c1BadStatsDetail : GhCommitDetail :=
  { sha := "abc123"
    commit := { message := "msg", author := { name := "alice", date := "2024-01-02T03:04:05Z" } }
    author := none
    stats := ⟨0, 0, 5⟩
    files := [] }

/-- The CommitDetail produced at the C1 counterexample input. -/
def c1cxOut : CommitDetail :=
  { sha := "abc123"
    message := "msg"
    author := "alice"
    date := "2024-01-02T03:04:05Z"
    url := "https://github.com/acme/widgets/commit/abc123"
    stats := ⟨0, 0, 5⟩
    files := [] }

/-- Claim C1, counterexample: on the remote-fetch path the stats of the
upstream detail response are passed through without validation, so a
detail response whose `stats` are `{additions: 0, deletions: 0,
total: 5}` produces a CommitDetail violating
`stats.total = stats.additions + stats.deletions`. -/
theorem c1_counterexample :
    routeStepRemote "acme" "widgets" ⟨true, 200, "OK", [⟨"abc123"⟩]⟩
        ⟨true, 200, "OK", c1BadStatsDetail⟩ = .ok c1cxOut
      ∧ c1cxOut.stats.total ≠ c1cxOut.stats.additions + c1cxOut.stats.deletions := by
  exact ⟨by decide, by decide⟩

/-- Claim C1 (amended): on the local-diff path every produced
CommitDetail satisfies `stats.total = stats.additions + stats.deletions`
with `stats.additions`/`stats.deletions` the sums of the per-file
counts; on the remote-fetch path the stats triple and the per-file
counts are passed through from the upstream detail response unchanged,
so there the invariant holds exactly when the upstream response
satisfies it. -/
theorem c1_amended_additivity :
    (∀ (content : String) (cm a cs : Option String) (now : String),
      (buildDiffDetail content cm a cs now).stats.total
          = (buildDiffDetail content cm a cs now).stats.additions
            + (buildDiffDetail content cm a cs now).stats.deletions
        ∧ (buildDiffDetail content cm a cs now).stats.additions
          = ((buildDiffDetail content cm a cs now).files.map (·.additions)).sum
        ∧ (buildDiffDetail content cm a cs now).stats.deletions
          = ((buildDiffDetail content cm a cs now).files.map (·.deletions)).sum)
    ∧ (∀ (owner repo : String) (r1 : HttpResponse (List ListCommitItem))
        (r2 : HttpResponse GhCommitDetail) (cd : CommitDetail),
        routeStepRemote owner repo r1 r2 = .ok cd →
          cd.stats = ⟨r2.body.stats.additions, r2.body.stats.deletions, r2.body.stats.total⟩
            ∧ cd.files.map (·.additions) = r2.body.files.map (·.additions)
            ∧ cd.files.map (·.deletions) = r2.body.files.map (·.deletions)) := by
  constructor
  · intro content cm a cs now
    exact ⟨rfl, foldl_additions_eq_sum _, foldl_deletions_eq_sum _⟩
  · intro owner repo r1 r2 cd h
    cases ho1 : r1.ok with
    | false => rw [routeStepRemote_err1 owner repo r1 r2 ho1] at h; simp at h
    | true =>
      cases hb : r1.body with
      | nil => rw [routeStepRemote_empty owner repo r1 r2 ho1 hb] at h; simp at h
      | cons x xs =>
        cases ho2 : r2.ok with
        | false =>
          rw [routeStepRemote_err2 owner repo r1 r2 x xs ho1 hb ho2] at h
          simp at h
        | true =>
          rw [routeStepRemote_ok owner repo r1 r2 x xs ho1 hb ho2] at h
          simp only [Except.ok.injEq] at h
          subst h
          refine ⟨rfl, ?_, ?_⟩ <;> simp [convertFile, List.map_map, Function.comp]

/-- The CommitDetail produced by the remote branch from `dummyGhDetail`. -/
def c1OkOut : CommitDetail :=
  { sha := "abc123"
    message := "msg"
    author := "alogin"
    date := "2024-01-02T03:04:05Z"
    url := "https://github.com/acme/widgets/commit/abc123"
    stats := ⟨3, 1, 4⟩
    files := [⟨"a.txt", 3, 1, 4, "modified", some "@@ -1 +1,3 @@"⟩] }

/-- Claim C1 witness: the amended theorem applied at a concrete diff
input and at a concrete pair of successful remote responses. -/
theorem c1_amended_additivity_witness :
    ((buildDiffDetail "+x\n" none none none "t").stats.total
        = (buildDiffDetail "+x\n" none none none "t").stats.additions
          + (buildDiffDetail "+x\n" none none none "t").stats.deletions)
    ∧ c1OkOut.stats = ⟨3, 1, 4⟩ := by
  constructor
  · exact (c1_amended_additivity.1 "+x\n" none none none "t").1
  · exact (c1_amended_additivity.2 "acme" "widgets" ⟨true, 200, "OK", [⟨"abc123"⟩]⟩
      ⟨true, 200, "OK", dummyGhDetail⟩ c1OkOut (by decide)).1

/-- The E2E scenario 1 diff text. -/
def c2diff : String :=
  "diff --git a/src/a.js b/src/a.js\n--- a/src/a.js\n+++ b/src/a.js\n@@ -1,2 +1,3 @@\n x\n+y\n-z"

/-- Claim C2: parsing the scenario-1 diff yields exactly one FileChange
`{filename: "src/a.js", additions: 1, deletions: 1, changes: 2,
status: "modified"}` and aggregate stats `{additions: 1, deletions: 1,
total: 2}` (for any normalization time). -/
theorem c2_e2e_scenario1 :
    ∀ now : String,
      (buildDiffDetail c2diff none none none now).files
          = [{ filename := "src/a.js", additions := 1, deletions := 1, changes := 2,
               status := "modified",
               patch := some "diff --git a/src/a.js b/src/a.js\n--- a/src/a.js\n+++ b/src/a.js\n@@ -1,2 +1,3 @@\n x\n+y\n-z\n" }]
        ∧ (buildDiffDetail c2diff none none none now).stats = ⟨1, 1, 2⟩ := by
  intro now
  exact ⟨rfl, rfl⟩

/-- Claim C3: `'repoUrl' in inputData` alone selects the Shape-A
branch — whatever the other fields hold, including a present
`diffContent` — and its absence selects the Shape-B branch, whose
fields (in particular an arbitrary, unvalidated `diffContent` string)
are passed through verbatim. -/
theorem c3_input_routing :
    (∀ (url : String) (dc cm a cs : Option String),
      parseRepoUrlStep ⟨some url, dc, cm, a, cs⟩ = parseRepoUrlPath url)
      ∧ (∀ dc cm a cs : Option String,
        parseRepoUrlStep ⟨none, dc, cm, a, cs⟩ = .ok (.diff dc cm a cs)) :=
  ⟨fun _ _ _ _ _ => rfl, fun _ _ _ _ => rfl⟩

/-- Claim C4: a non-success status from either remote call makes the
remote branch fail with the `GitHub API error: (status) (statusText)`
error wrapped in the `Failed to fetch commit details:` context
(constructors `JsError.githubApiError` / `RouteError.fetchWrapped`,
whose `message` functions carry the numeric status and the reason
text); no CommitDetail is returned. -/
theorem c4_remote_http_failure :
    ∀ (owner repo : String) (r1 : HttpResponse (List ListCommitItem))
      (r2 : HttpResponse GhCommitDetail),
      (r1.ok = false →
        routeStepRemote owner repo r1 r2
          = .error (.fetchWrapped (.githubApiError r1.status r1.statusText)))
      ∧ (∀ (x : ListCommitItem) (xs : List ListCommitItem),
          r1.ok = true → r1.body = x :: xs → r2.ok = false →
          routeStepRemote owner repo r1 r2
            = .error (.fetchWrapped (.githubApiError r2.status r2.statusText))) := by
  intro owner repo r1 r2
  exact ⟨routeStepRemote_err1 owner repo r1 r2,
    fun x xs h1 hb h2 => routeStepRemote_err2 owner repo r1 r2 x xs h1 hb h2⟩

/-- Claim C4 witness: a 404 on the commit-list call and a 500 on the
detail call, both at concrete inputs. -/
theorem c4_remote_http_failure_witness :
    ((⟨false, 404, "Not Found", []⟩ : HttpResponse (List ListCommitItem)).ok = false
      ∧ routeStepRemote "acme" "widgets" ⟨false, 404, "Not Found", []⟩
          ⟨true, 200, "OK", dummyGhDetail⟩
        = .error (.fetchWrapped (.githubApiError 404 "Not Found")))
    ∧ routeStepRemote "acme" "widgets" ⟨true, 200, "OK", [⟨"abc123"⟩]⟩
        ⟨false, 500, "Internal Server Error", dummyGhDetail⟩
      = .error (.fetchWrapped (.githubApiError 500 "Internal Server Error")) := by
  refine ⟨⟨rfl, ?_⟩, ?_⟩
  · exact (c4_remote_http_failure "acme" "widgets" _ _).1 rfl
  · exact (c4_remote_http_failure "acme" "widgets" _ _).2 ⟨"abc123"⟩ [] rfl rfl rfl

/-- Claim C5, counterexample: a successful commit-list call with an
empty body does fail, but with the generic wrapped property-access
`TypeError` (`commits[0]` is `undefined`, reading `.sha` throws) — not
with an error identifying the empty commit list, which the code never
produces (`RouteError.missingUpstreamData` models the spec's
`MissingUpstreamDataError`). -/
theorem c5_counterexample :
    routeStepRemote "acme" "widgets" ⟨true, 200, "OK", []⟩ ⟨true, 200, "OK", dummyGhDetail⟩
        = .error (.fetchWrapped (.undefinedPropertyAccess "sha"))
      ∧ RouteError.fetchWrapped (.undefinedPropertyAccess "sha")
        ≠ RouteError.missingUpstreamData := by
  exact ⟨by decide, by decide⟩

/-- Claim C5 (amended): when the commit-list call succeeds with an
empty list, the request fails — with the property-access `TypeError`
wrapped in the `Failed to fetch commit details:` context rather than
with an error identifying the empty commit list — and no CommitDetail
is produced. -/
theorem c5_amended_empty_commit_list :
    ∀ (owner repo : String) (r1 : HttpResponse (List ListCommitItem))
      (r2 : HttpResponse GhCommitDetail),
      r1.ok = true → r1.body = [] →
      routeStepRemote owner repo r1 r2
        = .error (.fetchWrapped (.undefinedPropertyAccess "sha")) :=
  fun owner repo r1 r2 h1 hb => routeStepRemote_empty owner repo r1 r2 h1 hb

/-- Claim C5 witness: the amended theorem at a concrete empty-list
response. -/
theorem c5_amended_empty_commit_list_witness :
    (⟨true, 200, "OK", ([] : List ListCommitItem)⟩
        : HttpResponse (List ListCommitItem)).ok = true
      ∧ routeStepRemote "acme" "widgets" ⟨true, 200, "OK", []⟩
          ⟨false, 404, "Not Found", dummyGhDetail⟩
        = .error (.fetchWrapped (.undefinedPropertyAccess "sha")) :=
  ⟨rfl, c5_amended_empty_commit_list "acme" "widgets" _ _ rfl rfl⟩

/-- Claim C6: the files emitted by the diff branch are exactly the
specification-side files: the line stream splits into a discarded
pre-marker prefix and sections headed by each `diff --git` marker;
an emitted FileChange's patch is its own marker line followed by all
lines up to (excluding) the next marker, each with its newline
restored (`specFileOfSection`), and pre-marker lines appear in no
emitted patch (`specFiles` drops the prefix component). -/
theorem c6_patch_accumulation :
    ∀ (content : String) (cm a cs : Option String) (now : String),
      (buildDiffDetail content cm a cs now).files = specFiles (splitLines content.toList) :=
  fun content _ _ _ _ => parseDiffFiles_eq_specFiles content

/-- Claim C7: whenever the pattern `github.com/` + non-slash owner
segment + `/` + repo segment (the first pattern of the loop,
`findRepoMatch completeRepo1`) finds no match in `repoUrl`, the step
fails with the `Invalid GitHub URL format:` error echoing the offending
URL, and no repo info (hence no CommitDetail) is produced.  The second
pattern of the loop only adds a further `.git` requirement, so it
cannot rescue a failed first pattern (`findRepoMatch_mono`). -/
theorem c7_invalid_url :
    ∀ url : String, findRepoMatch completeRepo1 url.toList = none →
      parseRepoUrlPath url = .error ("Invalid GitHub URL format: " ++ url) := by
  intro url h
  have h2 := findRepoMatch_mono _ h
  simp only [String.toList] at h h2
  simp [parseRepoUrlPath, urlLoopMatch, String.toList, h, h2, stripDotGit]

/-- Claim C7 witness: the URL `not-a-github-url` from the spec. -/
theorem c7_invalid_url_witness :
    findRepoMatch completeRepo1 "not-a-github-url".toList = none
      ∧ parseRepoUrlPath "not-a-github-url"
        = .error "Invalid GitHub URL format: not-a-github-url" := by
  refine ⟨by decide, ?_⟩
  exact c7_invalid_url "not-a-github-url" (by decide)

/-- Claim C8: `.git`-suffix stripping — the two spec URLs parse to
`{owner: "acme", repo: "widgets"}`, and in general `stripDotGit`
(the `endsWith('.git')`/`slice(0, -4)` step applied to the captured
repo segment) removes exactly a trailing `.git`. -/
theorem c8_git_suffix_stripped :
    parseRepoUrlPath "https://github.com/acme/widgets.git"
        = .ok (.repoInfo "acme" "widgets" "https://github.com/acme/widgets.git")
      ∧ parseRepoUrlPath "https://github.com/acme/widgets"
        = .ok (.repoInfo "acme" "widgets" "https://github.com/acme/widgets")
      ∧ ∀ s : Line, stripDotGit (s ++ ".git".toList) = s :=
  ⟨by decide, by decide, stripDotGit_append⟩

/-- Claim C9: Shape-B input with no `commitSha`/`author`/`commitMessage`
produces (on any environment) the CommitDetail with the sentinel
`sha = "direct-diff"`, `author = "Unknown"`, the fallback message
`"Direct diff review"`, and the empty URL. -/
theorem c9_diff_defaults :
    ∀ (content now : String) (r1 : HttpResponse (List ListCommitItem))
      (r2 : HttpResponse GhCommitDetail),
      routeStep (.diff (some content) none none none) now r1 r2
          = .ok (buildDiffDetail content none none none now)
        ∧ (buildDiffDetail content none none none now).sha = "direct-diff"
        ∧ (buildDiffDetail content none none none now).author = "Unknown"
        ∧ (buildDiffDetail content none none none now).message = "Direct diff review"
        ∧ (buildDiffDetail content none none none now).url = "" := by
  intro content now r1 r2
  exact ⟨rfl, rfl, rfl, rfl, rfl⟩

/-- Claim C10: a line that starts with `diff --git` but does not match
`/diff --git a\/(.+) b\/(.+)/` sets `currentFile` to the empty string;
if the rest of the input is that section, the emitted files and the
aggregate counters are exactly those of the input truncated before the
bad marker, while the loop's `+`/`-` counters do scan the section's
lines. -/
theorem c10_unmatched_marker_section :
    ∀ (content : String) (cm a cs : Option String) (now : String)
      (pre : List Line) (m : Line) (rest : List Line),
      splitLines content.toList = pre ++ m :: rest →
      isMarker m = true →
      matchDiffGit m = none →
      (∀ l ∈ rest, isMarker l = false) →
      (∀ st : ParseState, (stepLine st m).currentFile = some [])
        ∧ (buildDiffDetail content cm a cs now).files = finishFiles (runLines initState pre)
        ∧ (buildDiffDetail content cm a cs now).stats.additions
          = (finishFiles (runLines initState pre)).foldl (fun sum file => sum + file.additions) 0
        ∧ (buildDiffDetail content cm a cs now).stats.deletions
          = (finishFiles (runLines initState pre)).foldl (fun sum file => sum + file.deletions) 0
        ∧ (runLines initState (pre ++ m :: rest)).additions = countAdds rest
        ∧ (runLines initState (pre ++ m :: rest)).deletions = countDels rest := by
  intro content cm a cs now pre m rest hsplit hm hmatch hrest
  have hfiles : parseDiffFiles content = finishFiles (runLines initState pre) := by
    rw [parseDiffFiles, hsplit, run_spec, run_spec, splitSections_append hm hrest]
    simp [initState, truthy, List.filterMap_append, List.filterMap_cons,
      specFileOfSection, nameOf, hmatch]
  have hdec : runLines initState (pre ++ m :: rest)
      = runLines (stepLine (runLines initState pre) m) rest := by
    simp [runLines, List.foldl_append]
  refine ⟨?_, hfiles, ?_, ?_, ?_, ?_⟩
  · intro st
    rw [stepLine_marker st hm]
    simp [nameOf, hmatch]
  · exact congrArg (fun l => l.foldl (fun sum file => sum + file.additions) 0) hfiles
  · exact congrArg (fun l => l.foldl (fun sum file => sum + file.deletions) 0) hfiles
  · rw [hdec, stepLine_marker _ hm, run_nomarker rest _ hrest]
    simp
  · rw [hdec, stepLine_marker _ hm, run_nomarker rest _ hrest]
    simp

/-- Claim C10 witness: the bad marker `diff --git broken` followed by a
`+` line and a `-` line. -/
theorem c10_unmatched_marker_section_witness :
    (stepLine initState "diff --git broken".toList).currentFile = some []
      ∧ (buildDiffDetail "diff --git broken\n+a\n-b" none none none "t").files
        = finishFiles (runLines initState [])
      ∧ (runLines initState
            ([] ++ "diff --git broken".toList :: ["+a".toList, "-b".toList])).additions
        = countAdds ["+a".toList, "-b".toList] := by
  have h := c10_unmatched_marker_section "diff --git broken\n+a\n-b" none none none "t"
    [] ("diff --git broken".toList) ["+a".toList, "-b".toList]
    (by decide) (by decide) (by decide) (by decide)
  exact ⟨h.1 initState, h.2.1, h.2.2.2.2.1⟩

end CodeReview
